import Mathlib

/-!
Verification of the Synapse backend core (physics engine, clustering service,
websocket session manager) against its natural-language specification.

The definitions below are a shallow embedding of the Python sources:
- `src/services/physics_engine.py`
- `src/services/clustering_service.py` and `src/api/cluster_routes.py`
- `src/websocket/socket_manager.py`
Float arithmetic is modelled by exact real arithmetic over `ℝ`.
-/

namespace Synapse

/-! ## Physics engine (`src/services/physics_engine.py`) -/

/-- The `PhysicsBody` dataclass: a body in the simulation.  `embedding = none`
models the Python default `None`. -/
structure PhysicsBody where
  id : String
  x : ℝ
  y : ℝ
  vx : ℝ := 0
  vy : ℝ := 0
  mass : ℝ := 1
  radius : ℝ := 40
  embedding : Option (List ℝ) := none
  cluster_id : Option String := none

/- Engine constants fixed in `PhysicsEngine.__init__`. -/

def gravity_strength : ℝ := 5000
def repulsion_strength : ℝ := 2000
def similarity_threshold : ℝ := 0.7
def max_attraction_distance : ℝ := 800
def min_repulsion_distance : ℝ := 100
def damping : ℝ := 0.80
def max_velocity : ℝ := 15
def time_step : ℝ := 0.016

/-- Sum of squares of a vector (`np.linalg.norm` squared). -/
def sumSq (l : List ℝ) : ℝ := (l.map (fun x => x * x)).sum

/-- Euclidean norm `np.linalg.norm`. -/
noncomputable def vecNorm (l : List ℝ) : ℝ := Real.sqrt (sumSq l)

/-- Dot product `np.dot` of two equal-length vectors. -/
def dotProd (a b : List ℝ) : ℝ := (List.zipWith (fun x y => x * y) a b).sum

/-- Embedding of `PhysicsEngine.compute_similarity`: epsilon-guarded cosine similarity
rescaled from `[-1, 1]` to `[0, 1]`. -/
noncomputable def computeSimilarity (e1 e2 : List ℝ) : ℝ :=
  let v1n := e1.map (fun x => x / (vecNorm e1 + 1e-8))
  let v2n := e2.map (fun x => x / (vecNorm e2 + 1e-8))
  (dotProd v1n v2n + 1) / 2

/-- Python truthiness of the `embedding` field: `None` and `[]` are falsy. -/
def embActive : Option (List ℝ) → Bool
  | none => false
  | some l => !l.isEmpty

/-- Clamped distance between two bodies (`distance` in `compute_forces`,
floor-clamped to 1.0). -/
noncomputable def clampedDist (b o : PhysicsBody) : ℝ :=
  let d0 := Real.sqrt ((o.x - b.x) * (o.x - b.x) + (o.y - b.y) * (o.y - b.y))
  if d0 < 1 then 1 else d0

/-- Raw distance between two bodies (used by `get_nearest_neighbors`). -/
noncomputable def rawDist (b o : PhysicsBody) : ℝ :=
  Real.sqrt ((o.x - b.x) * (o.x - b.x) + (o.y - b.y) * (o.y - b.y))

/-- The repulsion contribution of `other` to the force on `body`
(the first `if` block of the pair loop in `compute_forces`). -/
noncomputable def pairRepulsion (b o : PhysicsBody) : ℝ × ℝ :=
  let d := clampedDist b o
  let ux := (o.x - b.x) / d
  let uy := (o.y - b.y) / d
  if d < min_repulsion_distance then
    let f := repulsion_strength * (1 - d / min_repulsion_distance)
    (-(ux * f), -(uy * f))
  else (0, 0)

/-- The attraction contribution of `other` to the force on `body`
(the second `if` block of the pair loop in `compute_forces`). -/
noncomputable def pairAttraction (b o : PhysicsBody) : ℝ × ℝ :=
  let d := clampedDist b o
  let ux := (o.x - b.x) / d
  let uy := (o.y - b.y) / d
  if embActive b.embedding ∧ embActive o.embedding ∧ d < max_attraction_distance then
    let sim := computeSimilarity (b.embedding.getD []) (o.embedding.getD [])
    if sim > similarity_threshold then
      let f := gravity_strength * ((sim - similarity_threshold) / (1 - similarity_threshold)) *
        (1 - d / max_attraction_distance)
      (ux * f, uy * f)
    else (0, 0)
  else (0, 0)

/-- Total force contribution of one `other` body inside `compute_forces`. -/
noncomputable def pairForce (b o : PhysicsBody) : ℝ × ℝ :=
  ((pairRepulsion b o).1 + (pairAttraction b o).1,
   (pairRepulsion b o).2 + (pairAttraction b o).2)

/-- Embedding of `PhysicsEngine.compute_forces`: net force on `b` from all other bodies of
the registry (the loop skips the entry whose key equals `b.id`). -/
noncomputable def computeForces (b : PhysicsBody) (reg : List PhysicsBody) : ℝ × ℝ :=
  reg.foldl
    (fun acc o =>
      if o.id = b.id then acc
      else (acc.1 + (pairForce b o).1, acc.2 + (pairForce b o).2))
    (0, 0)

/-- Velocity after force application and damping (the value tested against
`0.1` and `max_velocity` in `step`). -/
noncomputable def dampedVel (b : PhysicsBody) (fx fy : ℝ) : ℝ × ℝ :=
  ((b.vx + fx / b.mass * time_step) * damping,
   (b.vy + fy / b.mass * time_step) * damping)

/-- Velocity magnitude. -/
noncomputable def speed (vx vy : ℝ) : ℝ := Real.sqrt (vx * vx + vy * vy)

/-- The velocity kept by `step` after the `0.1` snap-to-zero and the
`max_velocity` rescale. -/
noncomputable def cappedVel (b : PhysicsBody) (fx fy : ℝ) : ℝ × ℝ :=
  let v := dampedVel b fx fy
  let sp := speed v.1 v.2
  if sp < 0.1 then ((0 : ℝ), (0 : ℝ))
  else if sp > max_velocity then
    (v.1 * (max_velocity / sp), v.2 * (max_velocity / sp))
  else v

/-- The per-body integration of `step`: damping, snap-to-zero below `0.1`,
rescale to `max_velocity` above the cap, then position update with the `* 60`
visibility scale. -/
noncomputable def integrate (b : PhysicsBody) (fx fy : ℝ) : PhysicsBody :=
  let v' := cappedVel b fx fy
  { b with
    vx := v'.1
    vy := v'.2
    x := b.x + v'.1 * time_step * 60
    y := b.y + v'.2 * time_step * 60 }

/-- The body-update loop of `PhysicsEngine.step`.  The Python loop iterates
the registry in insertion order and mutates each body in place, so the force
on a body is computed against the already-updated earlier bodies and the
not-yet-updated later ones.  Also records the force computed for each body. -/
noncomputable def stepAuxF :
    List PhysicsBody → List PhysicsBody → List PhysicsBody × List (String × ℝ × ℝ)
  | done, [] => (done, [])
  | done, b :: rest =>
    let f := computeForces b (done ++ b :: rest)
    let r := stepAuxF (done ++ [integrate b f.1 f.2]) rest
    (r.1, (b.id, f) :: r.2)
termination_by _ todo => todo.length

/-- The registry after one `PhysicsEngine.step()` call. -/
noncomputable def stepBodies (reg : List PhysicsBody) : List PhysicsBody :=
  (stepAuxF [] reg).1

/-- The update map returned by `PhysicsEngine.step()`. -/
noncomputable def stepUpdates (reg : List PhysicsBody) : List (String × ℝ × ℝ × ℝ × ℝ) :=
  (stepBodies reg).map (fun b => (b.id, b.x, b.y, b.vx, b.vy))

/-- The force computed for each body during one `step()` call, in iteration
order (each evaluated against the partially-updated registry). -/
noncomputable def forcesDuringStep (reg : List PhysicsBody) : List (String × ℝ × ℝ) :=
  (stepAuxF [] reg).2

/-- One entry of the list returned by `get_nearest_neighbors`. -/
structure NeighborInfo where
  id : String
  distance : ℝ
  similarity : ℝ
  x : ℝ
  y : ℝ

/-- The similarity value used by `get_nearest_neighbors` for a candidate pair:
`0.0` unless both embeddings are truthy, in which case `compute_similarity`. -/
noncomputable def simOf (b o : PhysicsBody) : ℝ :=
  if embActive b.embedding ∧ embActive o.embedding then
    computeSimilarity (b.embedding.getD []) (o.embedding.getD [])
  else 0

/-- The dict appended for an accepted neighbor. -/
noncomputable def neighborEntry (b o : PhysicsBody) : NeighborInfo :=
  { id := o.id, distance := rawDist b o, similarity := simOf b o, x := o.x, y := o.y }

/-- Insertion step of the descending similarity sort
(`neighbors.sort(key=..., reverse=True)`). -/
noncomputable def insertDesc (n : NeighborInfo) : List NeighborInfo → List NeighborInfo
  | [] => [n]
  | m :: ms => if n.similarity > m.similarity then n :: m :: ms else m :: insertDesc n ms

/-- Sort a neighbor list by similarity, descending. -/
noncomputable def sortDesc (l : List NeighborInfo) : List NeighborInfo :=
  l.foldr insertDesc []

/-- The candidate test of the `get_nearest_neighbors` loop body: skip the
source id, skip bodies farther than `max_distance`, keep bodies whose
similarity is at least `min_similarity`. -/
noncomputable def neighborCandidate (body : PhysicsBody) (bodyId : String)
    (maxDistance minSimilarity : ℝ) (o : PhysicsBody) : Option NeighborInfo :=
  if o.id = bodyId then none
  else if rawDist body o > maxDistance then none
  else if simOf body o ≥ minSimilarity then some (neighborEntry body o)
  else none

/-- Embedding of `PhysicsEngine.get_nearest_neighbors`: `[]` for an unknown id; otherwise
the other bodies within `max_distance` whose similarity is at least
`min_similarity`, sorted by similarity descending. -/
noncomputable def getNearestNeighbors (reg : List PhysicsBody) (bodyId : String)
    (maxDistance minSimilarity : ℝ) : List NeighborInfo :=
  match reg.find? (fun b => b.id == bodyId) with
  | none => []
  | some body =>
    sortDesc (reg.filterMap (neighborCandidate body bodyId maxDistance minSimilarity))

/-! ## Clustering service (`src/services/clustering_service.py` and the
request schema of `src/api/cluster_routes.py`) -/

/-- An input item as consumed by `ClusteringService.compute_clusters`
(keys `id`, `content`, `title`, `position_x`, `position_y`). -/
structure ClusterItem where
  id : String
  content : String
  title : String
  position_x : ℝ
  position_y : ℝ

/-- The `Cluster` dataclass. -/
structure Cluster where
  id : String
  name : String
  color : String
  center_x : ℝ
  center_y : ℝ
  radius : ℝ
  item_ids : List String
  keywords : List String

/-- The `CLUSTER_COLORS` palette: the fixed 10-color palette. -/
def CLUSTER_COLORS : List String :=
  ["#FF6B6B", "#4ECDC4", "#45B7D1", "#96CEB4", "#FFEAA7",
   "#DDA0DD", "#98D8C8", "#F7DC6F", "#BB8FCE", "#85C1E9"]

/-- The stop-word set of `_extract_keywords`. -/
def stopWords : List String :=
  ["the", "and", "for", "are", "but", "not", "you", "all",
   "can", "had", "her", "was", "one", "our", "out", "has",
   "have", "been", "will", "this", "that", "with", "from"]

/-- Split a character list into maximal alphabetic runs
(the matches of the regex pattern for alphabetic words). -/
def alphaRuns : List Char → List (List Char)
  | [] => []
  | c :: cs =>
    if c.isAlpha then
      match alphaRuns cs with
      | [] => [[c]]
      | r :: rs =>
        match cs with
        | [] => [[c]]
        | c' :: _ => if c'.isAlpha then (c :: r) :: rs else [c] :: r :: rs
    else alphaRuns cs

/-- Tokenization of `_extract_keywords`: lower-case the text, keep maximal
alphabetic runs of length at least 3. -/
def tokenize (text : String) : List String :=
  ((alphaRuns text.toLower.data).filter (fun r => 3 ≤ r.length)).map List.asString

/-- Count the occurrences of `w` in `ws`. -/
def countOcc (w : String) (ws : List String) : ℕ := (ws.filter (fun v => v == w)).length

/-- Embedding of `Counter.most_common`: the distinct words in first-occurrence order,
sorted by count descending (Python's sort is stable, so equal counts keep
first-occurrence order); insertion sort by strict `>` on counts is exactly
that. -/
def insertByCount (ws : List String) (w : String) :
    List String → List String
  | [] => [w]
  | v :: vs => if countOcc w ws > countOcc v ws then w :: v :: vs else v :: insertByCount ws w vs

def mostCommon (ws : List String) : List String :=
  (ws.eraseDups).foldr (insertByCount ws) []

/-- Embedding of `ClusteringService._extract_keywords`. -/
def extractKeywords (items : List ClusterItem) (maxKeywords : ℕ := 10) : List String :=
  let allText := String.intercalate " " (items.map (fun it => it.content ++ " " ++ it.title))
  let words := (tokenize allText).filter (fun w => ¬ w ∈ stopWords)
  (mostCommon words).take maxKeywords

/-- Embedding of `ClusteringService._generate_cluster_name`. -/
def generateClusterName (keywords : List String) : String :=
  if keywords.isEmpty then "Miscellaneous"
  else String.intercalate " & " ((keywords.take 3).map String.capitalize)

/-- The items of one label group (`cluster_items` in `_build_clusters`). -/
def clusterMembers (items : List ClusterItem) (labels : List ℤ) (lbl : ℤ) :
    List ClusterItem :=
  ((items.zip labels).filter (fun p => p.2 = lbl)).map Prod.fst

/-- Arithmetic-mean centroid of the member canvas positions. -/
noncomputable def clusterCenter (members : List ClusterItem) : ℝ × ℝ :=
  ((members.map (·.position_x)).sum / members.length,
   (members.map (·.position_y)).sum / members.length)

/-- Maximum member distance from the centroid (`max_dist`); `max` of a
nonempty list, `0` for the unreachable empty case. -/
noncomputable def clusterMaxDist (members : List ClusterItem) : ℝ :=
  let c := clusterCenter members
  let dists := members.map (fun it =>
    Real.sqrt ((it.position_x - c.1) * (it.position_x - c.1) +
               (it.position_y - c.2) * (it.position_y - c.2)))
  match dists with
  | [] => 0
  | d :: ds => ds.foldl max d

/-- The body of the per-label loop in `_build_clusters`: skip the noise label
`-1` and groups with fewer than 2 members, otherwise build a `Cluster`. -/
noncomputable def buildOne (items : List ClusterItem) (labels : List ℤ)
    (labelIdx : ℕ) (lbl : ℤ) : Option Cluster :=
  if lbl = -1 then none
  else
    let members := clusterMembers items labels lbl
    if members.length < 2 then none
    else
      let c := clusterCenter members
      let keywords := extractKeywords members
      some
        { id := "cluster-" ++ toString lbl
          name := generateClusterName keywords
          color := CLUSTER_COLORS.getD (labelIdx % CLUSTER_COLORS.length) ""
          center_x := c.1
          center_y := c.2
          radius := clusterMaxDist members + 100
          item_ids := members.map (·.id)
          keywords := keywords.take 5 }

/-- Embedding of `ClusteringService._build_clusters`: iterate the distinct labels with
their enumeration index. -/
noncomputable def buildClusters (items : List ClusterItem) (labels : List ℤ) :
    List Cluster :=
  labels.eraseDups.enum.filterMap (fun p => buildOne items labels p.1 p.2)

/-- Constructor arguments of `ClusteringService`. -/
structure ClusteringConfig where
  algorithm : String
  eps : ℝ
  min_samples : ℕ
  n_clusters : Option ℕ

/-- The K-means cluster count: `self.n_clusters or min(max(2, n_items // 5), 10)`
(Python `or` also falls through on the falsy value `0`). -/
def kmeansClusterCount (cfg : ClusteringConfig) (nItems : ℕ) : ℕ :=
  match cfg.n_clusters with
  | some k => if k = 0 then min (max 2 (nItems / 5)) 10 else k
  | none => min (max 2 (nItems / 5)) 10

/-- Embedding of `ClusteringService.compute_clusters`.  The external sklearn calls
(`StandardScaler.fit_transform`, `DBSCAN.fit_predict`, `KMeans.fit_predict`)
are passed in as function parameters; everything else follows the source:
fewer than 2 items or embeddings returns `[]`, `"dbscan"` dispatches to
DBSCAN and any other algorithm string falls through to K-means, and the
resulting labels are turned into clusters by `_build_clusters`. -/
noncomputable def computeClusters
    (standardizeFn : List (List ℝ) → List (List ℝ))
    (dbscanFn : ℝ → ℕ → List (List ℝ) → List ℤ)
    (kmeansFn : ℕ → List (List ℝ) → List ℤ)
    (cfg : ClusteringConfig) (items : List ClusterItem)
    (embeddings : List (List ℝ)) : List Cluster :=
  if items.length < 2 ∨ embeddings.length < 2 then []
  else
    let scaled := standardizeFn embeddings
    let labels :=
      if cfg.algorithm = "dbscan" then dbscanFn cfg.eps cfg.min_samples scaled
      else kmeansFn (kmeansClusterCount cfg items.length) scaled
    buildClusters items labels

/-- The `ComputeClustersRequest` schema (pydantic schema in `cluster_routes.py`). -/
structure ComputeClustersRequest where
  algorithm : String
  eps : ℝ
  min_samples : ℕ
  n_clusters : Option ℕ
  use_llm_naming : Bool

/-- Pydantic validation of `ComputeClustersRequest`: the `algorithm` field
must match the regex `^(dbscan|kmeans)$`, `eps` lies in `[0.1, 2.0]`,
`min_samples` in `[2, 10]` and `n_clusters` (when supplied) in `[2, 20]`.
FastAPI rejects the request before the route handler runs when any field
fails. -/
noncomputable def mkComputeClustersRequest (algorithm : String) (eps : ℝ)
    (minSamples : ℕ) (nClusters : Option ℕ) (useLlmNaming : Bool) :
    Except String ComputeClustersRequest :=
  if ¬ (algorithm = "dbscan" ∨ algorithm = "kmeans") then
    .error "algorithm: string should match pattern"
  else if ¬ (0.1 ≤ eps ∧ eps ≤ 2.0) then .error "eps out of range"
  else if ¬ (2 ≤ minSamples ∧ minSamples ≤ 10) then .error "min_samples out of range"
  else
    match nClusters with
    | some k =>
      if ¬ (2 ≤ k ∧ k ≤ 20) then .error "n_clusters out of range"
      else .ok ⟨algorithm, eps, minSamples, nClusters, useLlmNaming⟩
    | none => .ok ⟨algorithm, eps, minSamples, nClusters, useLlmNaming⟩

/-- The `compute_clusters` route: validate the request, then construct a
`ClusteringService` from its fields and run `compute_clusters` on the
workspace items.  Validation failure short-circuits before any clustering. -/
noncomputable def computeClustersEndpoint
    (standardizeFn : List (List ℝ) → List (List ℝ))
    (dbscanFn : ℝ → ℕ → List (List ℝ) → List ℤ)
    (kmeansFn : ℕ → List (List ℝ) → List ℤ)
    (algorithm : String) (eps : ℝ) (minSamples : ℕ) (nClusters : Option ℕ)
    (useLlmNaming : Bool) (items : List ClusterItem)
    (embeddings : List (List ℝ)) : Except String (List Cluster) := do
  let req ← mkComputeClustersRequest algorithm eps minSamples nClusters useLlmNaming
  .ok (computeClusters standardizeFn dbscanFn kmeansFn
    ⟨req.algorithm, req.eps, req.min_samples, req.n_clusters⟩ items embeddings)

/-! ## Socket manager (`src/websocket/socket_manager.py`)

Socket.IO fires the `connect` handler before any other event from a
connection and issues fresh sids, so the `self.user_info[sid][...] = ...`
dict assignments are modelled as create-or-update.  Socket.IO room
membership (the library state behind `enter_room` / `leave_room` / `emit
room=... skip_sid=...`) is modelled as a map from room name to member set;
the library removes a disconnected sid from every room. -/

/-- The per-connection metadata dict `self.user_info[sid]`. -/
structure UserInfo where
  connected_at : String
  workspace_id : Option String
  user_name : Option String
deriving DecidableEq

/-- The mutable state of `SocketManager` plus the Socket.IO room table. -/
structure SMState where
  workspace_users : String → Option (Finset String)
  user_info : String → Option UserInfo
  sioRooms : String → Finset String

/-- State at process start: no rooms, no connections. -/
def initSMState : SMState :=
  { workspace_users := fun _ => none
    user_info := fun _ => none
    sioRooms := fun _ => ∅ }

/-- Member set of a workspace room (empty when the key is absent). -/
def memOf (s : SMState) (w : String) : Finset String :=
  (s.workspace_users w).getD ∅

/-- The workspace id currently tracked in a connection's metadata. -/
def trackedWs (s : SMState) (sid : String) : Option String :=
  (s.user_info sid).bind (·.workspace_id)

/-- Embedding of `self.workspace_users[w].discard(sid)` together with
`self.sio.leave_room(sid, w)`, both guarded by `w in self.workspace_users`
(the code always performs them together). -/
def removeFromRoom (s : SMState) (sid w : String) : SMState :=
  match s.workspace_users w with
  | some mem =>
    { s with
      workspace_users := fun v =>
        if v = w then some (mem.erase sid) else s.workspace_users v
      sioRooms := fun v =>
        if v = w then (s.sioRooms w).erase sid else s.sioRooms v }
  | none => s

/-- Embedding of `self.workspace_users[w].discard(sid)` alone, guarded by key presence
(the `disconnect` handler, where the library does the room cleanup). -/
def removeMember (s : SMState) (sid w : String) : SMState :=
  match s.workspace_users w with
  | some mem =>
    { s with workspace_users := fun v =>
        if v = w then some (mem.erase sid) else s.workspace_users v }
  | none => s

/-- Embedding of `self.sio.enter_room(sid, w)`. -/
def enterRoom (s : SMState) (sid w : String) : SMState :=
  { s with sioRooms := fun v =>
      if v = w then insert sid (s.sioRooms w) else s.sioRooms v }

/-- Create the member-set key if needed and add the sid. -/
def addMember (s : SMState) (sid w : String) : SMState :=
  { s with workspace_users := fun v =>
      if v = w then some (insert sid ((s.workspace_users w).getD ∅))
      else s.workspace_users v }

/-- Overwrite a connection's metadata dict. -/
def setInfo (s : SMState) (sid : String) (i : UserInfo) : SMState :=
  { s with user_info := fun u => if u = sid then some i else s.user_info u }

/-- Embedding of `del self.user_info[sid]`. -/
def dropInfo (s : SMState) (sid : String) : SMState :=
  { s with user_info := fun u => if u = sid then none else s.user_info u }

/-- Socket.IO cleanup on disconnect: the library removes the sid from every
room. -/
def sioDropAll (s : SMState) (sid : String) : SMState :=
  { s with sioRooms := fun v => (s.sioRooms v).erase sid }

/-- The "leave previous workspace" prologue of `join_workspace`: when the
tracked workspace is truthy (and its key present) the sid is discarded from
it and leaves the Socket.IO room. -/
def leavePrev (s : SMState) (sid : String) : SMState :=
  match trackedWs s sid with
  | some old => if old = "" then s else removeFromRoom s sid old
  | none => s

/-- The `connect` handler: record fresh connection metadata. -/
def connectOp (s : SMState) (sid ts : String) : SMState :=
  setInfo s sid ⟨ts, none, none⟩

/-- The `disconnect` handler followed by the Socket.IO cleanup: discard the
sid from its tracked workspace's member set (when tracked and present),
delete its metadata, and (library behavior) remove it from every room. -/
def disconnectOp (s : SMState) (sid : String) : SMState :=
  let s1 :=
    match trackedWs s sid with
    | some w => if w = "" then s else removeMember s sid w
    | none => s
  sioDropAll (dropInfo s1 sid) sid

/-- The `data` dict of a `join_workspace` event. -/
structure JoinData where
  workspace_id : Option String
  user_name : Option String
deriving DecidableEq

/-- The `data` dict of a `leave_workspace` event. -/
structure LeaveData where
  workspace_id : Option String
deriving DecidableEq

/-- Reply of `join_workspace` on success. -/
structure JoinReply where
  workspace_id : String
  other_users : Finset (String × String)
deriving DecidableEq

/-- The `join_workspace` handler: reject a falsy `workspace_id` before any
state change; otherwise leave the previous room (when tracked and present),
enter the new Socket.IO room, add the sid to the new member set, update the
metadata and return the other members. -/
def joinOp (s : SMState) (sid : String) (d : JoinData) :
    SMState × Except String JoinReply :=
  match d.workspace_id with
  | none => (s, .error "workspace_id required")
  | some w =>
    if w = "" then (s, .error "workspace_id required")
    else
      let userName := d.user_name.getD "Anonymous"
      let s2 := addMember (enterRoom (leavePrev s sid) sid w) sid w
      let newInfo : UserInfo :=
        match s2.user_info sid with
        | some info => { info with workspace_id := some w, user_name := some userName }
        | none => ⟨"", some w, some userName⟩
      let s3 := setInfo s2 sid newInfo
      let others := (memOf s3 w).erase sid
      (s3, .ok ⟨w, others.image (fun uid =>
        (uid, (((s3.user_info uid).map (fun i => i.user_name.getD "Anonymous")).getD "Anonymous")))⟩)

/-- The `leave_workspace` handler: discard the sid from the *named*
workspace's member set (when truthy and present), then unconditionally clear
the tracked workspace in the metadata. -/
def leaveOp (s : SMState) (sid : String) (d : LeaveData) : SMState :=
  let s1 :=
    match d.workspace_id with
    | some w => if w = "" then s else removeFromRoom s sid w
    | none => s
  let newInfo : UserInfo :=
    match s1.user_info sid with
    | some info => { info with workspace_id := none }
    | none => ⟨"", none, none⟩
  setInfo s1 sid newInfo

/-- Recipient set of a point-event relay (`item_created`, `item_updated`,
`item_deleted`, `item_moved`, `cursor_move`): when the sender's tracked
workspace is truthy, the event is emitted to that Socket.IO room with
`skip_sid = sid`; otherwise nothing is emitted. -/
def relayRecipients (s : SMState) (sid : String) : Option (Finset String) :=
  match trackedWs s sid with
  | some w => if w = "" then none else some ((s.sioRooms w).erase sid)
  | none => none

/-- The state-changing socket events. -/
inductive SMOp where
  | connect (sid ts : String)
  | disconnect (sid : String)
  | join (sid : String) (d : JoinData)
  | leave (sid : String) (d : LeaveData)
deriving DecidableEq

def applyOp (s : SMState) : SMOp → SMState
  | .connect sid ts => connectOp s sid ts
  | .disconnect sid => disconnectOp s sid
  | .join sid d => (joinOp s sid d).1
  | .leave sid d => leaveOp s sid d

def runOps (ops : List SMOp) : SMState := ops.foldl applyOp initSMState

/-- A step is well-formed when `connect` uses a fresh sid (Socket.IO issues
fresh sids) and `leave_workspace` names the connection's currently tracked
workspace (what a well-behaved client sends). -/
def okStep (s : SMState) : SMOp → Prop
  | .connect sid _ => s.user_info sid = none
  | .leave sid d => d.workspace_id = trackedWs s sid
  | _ => True

def okTrace : SMState → List SMOp → Prop
  | _, [] => True
  | s, op :: ops => okStep s op ∧ okTrace (applyOp s op) ops

instance (s : SMState) (op : SMOp) : Decidable (okStep s op) := by
  cases op <;> simp only [okStep] <;> infer_instance

instance instDecidableOkTrace : ∀ (s : SMState) (ops : List SMOp), Decidable (okTrace s ops)
  | _, [] => .isTrue trivial
  | s, op :: ops =>
    have : Decidable (okTrace (applyOp s op) ops) := instDecidableOkTrace _ _
    instDecidableAnd

/-! ## Lemmas about the force model -/

theorem dotProd_comm (a b : List ℝ) : dotProd a b = dotProd b a := by
  induction a generalizing b with
  | nil => cases b <;> rfl
  | cons x xs ih =>
    cases b with
    | nil => rfl
    | cons y ys =>
      show x * y + dotProd xs ys = y * x + dotProd ys xs
      rw [mul_comm, ih]

theorem computeSimilarity_comm (e1 e2 : List ℝ) :
    computeSimilarity e1 e2 = computeSimilarity e2 e1 := by
  simp only [computeSimilarity]
  rw [dotProd_comm]

theorem clampedDist_comm (b o : PhysicsBody) : clampedDist b o = clampedDist o b := by
  unfold clampedDist
  rw [show (o.x - b.x) * (o.x - b.x) + (o.y - b.y) * (o.y - b.y)
      = (b.x - o.x) * (b.x - o.x) + (b.y - o.y) * (b.y - o.y) from by ring]

theorem pairRepulsion_antisymm (b o : PhysicsBody) :
    pairRepulsion o b = (-(pairRepulsion b o).1, -(pairRepulsion b o).2) := by
  simp only [pairRepulsion]
  rw [clampedDist_comm o b]
  split_ifs with h
  · simp only [Prod.mk.injEq]
    constructor <;> ring
  · simp

theorem pairAttraction_antisymm (b o : PhysicsBody) :
    pairAttraction o b = (-(pairAttraction b o).1, -(pairAttraction b o).2) := by
  simp only [pairAttraction]
  rw [clampedDist_comm o b,
    computeSimilarity_comm (o.embedding.getD []) (b.embedding.getD [])]
  split_ifs <;>
    first
      | tauto
      | (simp only [Prod.mk.injEq]; constructor <;> ring)

/-- C4 (amended): evaluated at the same positions, the per-pair force term of
`compute_forces` is antisymmetric: the force `b` receives from `o` is the
exact negative of the force `o` receives from `b`. -/
theorem c4_pairForce_antisymmetric (b o : PhysicsBody) :
    pairForce o b = (-(pairForce b o).1, -(pairForce b o).2) := by
  unfold pairForce
  rw [pairRepulsion_antisymm b o, pairAttraction_antisymm b o]
  simp only [Prod.mk.injEq]
  constructor <;> ring

/-! ## The velocity cap (claim C1) -/

theorem speed_scale (vx vy s : ℝ) (hs : 0 ≤ s) :
    speed (vx * s) (vy * s) = speed vx vy * s := by
  unfold speed
  rw [show vx * s * (vx * s) + vy * s * (vy * s) = (vx * vx + vy * vy) * (s * s) from by ring,
    Real.sqrt_mul (add_nonneg (mul_self_nonneg vx) (mul_self_nonneg vy)),
    Real.sqrt_mul_self hs]

theorem cappedVel_speed_le (b : PhysicsBody) (fx fy : ℝ) :
    speed (cappedVel b fx fy).1 (cappedVel b fx fy).2 ≤ max_velocity := by
  have hmax : (0 : ℝ) < max_velocity := by norm_num [max_velocity]
  simp only [cappedVel]
  set v := dampedVel b fx fy with hv
  split_ifs with h1 h2
  · simpa [speed] using le_of_lt hmax
  · rw [speed_scale _ _ _ (le_of_lt (div_pos hmax (lt_trans hmax h2))), mul_comm,
      div_mul_cancel₀ _ (ne_of_gt (lt_trans hmax h2))]
  · push_neg at h2
    exact h2

theorem cappedVel_small_zero (b : PhysicsBody) (fx fy : ℝ)
    (h : speed (dampedVel b fx fy).1 (dampedVel b fx fy).2 < 0.1) :
    cappedVel b fx fy = (0, 0) := by
  unfold cappedVel
  rw [if_pos h]

theorem integrate_vel (b : PhysicsBody) (fx fy : ℝ) :
    (integrate b fx fy).vx = (cappedVel b fx fy).1 ∧
    (integrate b fx fy).vy = (cappedVel b fx fy).2 := ⟨rfl, rfl⟩

/-- C1: every body's post-step speed is at most `max_velocity`, and whenever
the post-damping speed is below `0.1` the integration snaps the velocity to
exactly zero. -/
theorem c1_speed_capped :
    (∀ (reg : List PhysicsBody) (b : PhysicsBody), b ∈ stepBodies reg →
        speed b.vx b.vy ≤ max_velocity) ∧
    (∀ (b : PhysicsBody) (fx fy : ℝ),
        speed (dampedVel b fx fy).1 (dampedVel b fx fy).2 < 0.1 →
        (integrate b fx fy).vx = 0 ∧ (integrate b fx fy).vy = 0) := by
  constructor
  · have key : ∀ (todo done : List PhysicsBody),
        (∀ b ∈ done, speed b.vx b.vy ≤ max_velocity) →
        ∀ b ∈ (stepAuxF done todo).1, speed b.vx b.vy ≤ max_velocity := by
      intro todo
      induction todo with
      | nil =>
        intro done h b hb
        simp only [stepAuxF] at hb
        exact h b hb
      | cons c rest ih =>
        intro done h b hb
        simp only [stepAuxF] at hb
        refine ih _ (fun b' hb' => ?_) b hb
        rcases List.mem_append.mp hb' with h1 | h2
        · exact h b' h1
        · rw [List.mem_singleton.mp h2]
          rw [(integrate_vel c _ _).1, (integrate_vel c _ _).2]
          exact cappedVel_speed_le c _ _
    intro reg b hb
    exact key reg [] (by simp) b hb
  · intro b fx fy h
    have hz := cappedVel_small_zero b fx fy h
    rw [(integrate_vel b fx fy).1, (integrate_vel b fx fy).2, hz]
    exact ⟨rfl, rfl⟩

/-- A single stationary body: `step` leaves it untouched and the theorem's
two parts apply to it. -/
theorem c1_speed_capped_witness :
    speed (0 : ℝ) 0 ≤ max_velocity ∧
    (integrate ⟨"z", 0, 0, 0, 0, 1, 40, none, none⟩ 0 0).vx = 0 ∧
    (integrate ⟨"z", 0, 0, 0, 0, 1, 40, none, none⟩ 0 0).vy = 0 := by
  have hd : speed (dampedVel ⟨"z", 0, 0, 0, 0, 1, 40, none, none⟩ 0 0).1
      (dampedVel ⟨"z", 0, 0, 0, 0, 1, 40, none, none⟩ 0 0).2 < 0.1 := by
    simp only [dampedVel, speed]
    norm_num
  have h2 := c1_speed_capped.2 ⟨"z", 0, 0, 0, 0, 1, 40, none, none⟩ 0 0 hd
  have hstep : stepBodies [⟨"z", 0, 0, 0, 0, 1, 40, none, none⟩]
      = [integrate ⟨"z", 0, 0, 0, 0, 1, 40, none, none⟩ 0 0] := by
    simp [stepBodies, stepAuxF, computeForces]
  have hmem : integrate ⟨"z", 0, 0, 0, 0, 1, 40, none, none⟩ 0 0
      ∈ stepBodies [⟨"z", 0, 0, 0, 0, 1, 40, none, none⟩] := by
    rw [hstep]; exact List.mem_singleton_self _
  have h1 := c1_speed_capped.1 _ _ hmem
  rw [h2.1, h2.2] at h1
  exact ⟨h1, h2⟩

/-! ## Degraded embeddings (claim C2) -/

theorem sumSq_nonneg (l : List ℝ) : 0 ≤ sumSq l := by
  induction l with
  | nil => simp [sumSq]
  | cons x xs ih =>
    simp only [sumSq, List.map_cons, List.sum_cons]
    have := mul_self_nonneg x
    simp only [sumSq] at ih
    linarith

theorem sumSq_eq_zero (l : List ℝ) (h : sumSq l = 0) : ∀ x ∈ l, x = 0 := by
  induction l with
  | nil => simp
  | cons y ys ih =>
    simp only [sumSq, List.map_cons, List.sum_cons] at h
    have hys := sumSq_nonneg ys
    have hy := mul_self_nonneg y
    simp only [sumSq] at hys h
    have hy0 : y * y = 0 := by linarith
    intro x hx
    rcases List.mem_cons.mp hx with rfl | hx'
    · exact mul_self_eq_zero.mp hy0
    · exact ih (by simp only [sumSq]; linarith) x hx'

theorem dotProd_zero_left (a b : List ℝ) (h : ∀ x ∈ a, x = 0) : dotProd a b = 0 := by
  induction a generalizing b with
  | nil => rfl
  | cons x xs ih =>
    cases b with
    | nil => rfl
    | cons y ys =>
      show x * y + dotProd xs ys = 0
      rw [h x (List.mem_cons_self _ _), ih ys (fun z hz => h z (List.mem_cons_of_mem _ hz))]
      ring

theorem computeSimilarity_zero_norm_left (e1 e2 : List ℝ) (h : vecNorm e1 = 0) :
    computeSimilarity e1 e2 = 1 / 2 := by
  have hz : ∀ x ∈ e1, x = 0 :=
    sumSq_eq_zero e1 ((Real.sqrt_eq_zero (sumSq_nonneg e1)).mp h)
  have hz' : ∀ x ∈ e1.map (fun x => x / (vecNorm e1 + 1e-8)), x = 0 := by
    intro x hx
    obtain ⟨y, hy, rfl⟩ := List.mem_map.mp hx
    rw [hz y hy]
    simp
  simp only [computeSimilarity]
  rw [dotProd_zero_left _ _ hz']
  norm_num

theorem pairAttraction_degraded (b o : PhysicsBody)
    (h : b.embedding = none ∨ ∃ l, b.embedding = some l ∧ vecNorm l = 0) :
    pairAttraction b o = (0, 0) ∧ pairAttraction o b = (0, 0) := by
  rcases h with h | ⟨l, hl, hn⟩
  · constructor <;> simp [pairAttraction, h, embActive]
  · have hsim1 : computeSimilarity (b.embedding.getD []) (o.embedding.getD []) = 1 / 2 := by
      rw [hl]
      exact computeSimilarity_zero_norm_left l _ hn
    have hsim2 : computeSimilarity (o.embedding.getD []) (b.embedding.getD []) = 1 / 2 := by
      rw [computeSimilarity_comm]
      exact hsim1
    constructor
    · simp only [pairAttraction, hsim1]
      split_ifs with h1 h2
      · exfalso
        rw [similarity_threshold] at h2
        norm_num at h2
      · rfl
      · rfl
    · simp only [pairAttraction, hsim2]
      split_ifs with h1 h2
      · exfalso
        rw [similarity_threshold] at h2
        norm_num at h2
      · rfl
      · rfl

/-- C2 (amended): a body whose embedding is absent, or present with zero
norm, participates in repulsion only: the per-pair force reduces to the
repulsion term in both directions.  An absent or empty embedding skips the
attraction branch, and the neighbor query uses similarity `0` for it; a
nonempty zero-norm embedding yields the epsilon-guarded similarity `1/2` —
not `0` — which is below the `0.7` threshold, so the attraction magnitude is
still zero. -/
theorem c2_degraded_embedding_repulsion_only :
    (∀ (b o : PhysicsBody),
      b.embedding = none ∨ (∃ l, b.embedding = some l ∧ vecNorm l = 0) →
      pairForce b o = pairRepulsion b o ∧ pairForce o b = pairRepulsion o b) ∧
    (∀ (b o : PhysicsBody), embActive b.embedding = false →
      simOf b o = 0 ∧ simOf o b = 0) := by
  constructor
  · intro b o h
    obtain ⟨h1, h2⟩ := pairAttraction_degraded b o h
    constructor
    · simp [pairForce, h1]
    · simp [pairForce, h2]
  · intro b o hb
    constructor
    · unfold simOf
      rw [if_neg (by simp [hb])]
    · unfold simOf
      rw [if_neg (by simp [hb])]

/-- A body with no embedding next to an embedded body: the pair force is
pure repulsion and the similarity used by the neighbor query is `0`. -/
theorem c2_degraded_embedding_witness :
    pairForce ⟨"p", 0, 0, 0, 0, 1, 40, none, none⟩ ⟨"q", 3, 4, 0, 0, 1, 40, some [1], none⟩
      = pairRepulsion ⟨"p", 0, 0, 0, 0, 1, 40, none, none⟩ ⟨"q", 3, 4, 0, 0, 1, 40, some [1], none⟩ ∧
    simOf ⟨"p", 0, 0, 0, 0, 1, 40, none, none⟩ ⟨"q", 3, 4, 0, 0, 1, 40, some [1], none⟩ = 0 :=
  ⟨(c2_degraded_embedding_repulsion_only.1 _ _ (Or.inl rfl)).1,
   (c2_degraded_embedding_repulsion_only.2 ⟨"p", 0, 0, 0, 0, 1, 40, none, none⟩
      ⟨"q", 3, 4, 0, 0, 1, 40, some [1], none⟩ rfl).1⟩

/-! ## The neighbor query (claim C5) -/

theorem mem_insertDesc (n m : NeighborInfo) (l : List NeighborInfo) :
    m ∈ insertDesc n l ↔ m = n ∨ m ∈ l := by
  induction l with
  | nil => simp [insertDesc]
  | cons k ks ih =>
    simp only [insertDesc]
    split_ifs with h
    · simp [List.mem_cons]
    · simp only [List.mem_cons, ih]
      tauto

theorem pairwise_insertDesc (n : NeighborInfo) (l : List NeighborInfo)
    (h : List.Pairwise (fun a c => c.similarity ≤ a.similarity) l) :
    List.Pairwise (fun a c => c.similarity ≤ a.similarity) (insertDesc n l) := by
  induction l with
  | nil => simp [insertDesc]
  | cons k ks ih =>
    rcases List.pairwise_cons.mp h with ⟨hk, hks⟩
    simp only [insertDesc]
    split_ifs with hcmp
    · refine List.pairwise_cons.mpr ⟨?_, h⟩
      intro a ha
      rcases List.mem_cons.mp ha with rfl | ha'
      · exact le_of_lt hcmp
      · exact le_trans (hk a ha') (le_of_lt hcmp)
    · refine List.pairwise_cons.mpr ⟨?_, ih hks⟩
      intro a ha
      rcases (mem_insertDesc n a ks).mp ha with rfl | ha'
      · exact not_lt.mp hcmp
      · exact hk a ha'

theorem mem_sortDesc (l : List NeighborInfo) (m : NeighborInfo) :
    m ∈ sortDesc l ↔ m ∈ l := by
  induction l with
  | nil => simp [sortDesc]
  | cons k ks ih =>
    show m ∈ insertDesc k (sortDesc ks) ↔ _
    rw [mem_insertDesc, ih, List.mem_cons]

theorem pairwise_sortDesc (l : List NeighborInfo) :
    List.Pairwise (fun a c => c.similarity ≤ a.similarity) (sortDesc l) := by
  induction l with
  | nil => exact List.Pairwise.nil
  | cons k ks ih => exact pairwise_insertDesc k _ ih

theorem neighborCandidate_eq_some (body : PhysicsBody) (bid : String) (maxD minSim : ℝ)
    (o : PhysicsBody) (n : NeighborInfo) :
    neighborCandidate body bid maxD minSim o = some n ↔
      o.id ≠ bid ∧ rawDist body o ≤ maxD ∧ minSim ≤ simOf body o ∧
        n = neighborEntry body o := by
  unfold neighborCandidate
  split_ifs with h1 h2 h3
  · simp [h1]
  · simp only [not_lt] at h2
    constructor
    · intro hc
      cases hc
    · rintro ⟨_, hle, _, _⟩
      exact absurd hle (by simpa using h2)
  · simp only [not_lt] at h2
    constructor
    · intro hc
      exact ⟨h1, not_lt.mp (by simpa using h2), h3, (Option.some_inj.mp hc).symm⟩
    · rintro ⟨_, _, _, rfl⟩
      rfl
  · constructor
    · intro hc
      cases hc
    · rintro ⟨_, _, hs, _⟩
      exact absurd hs h3

/-- C5 (amended): for an absent id the neighbor query returns `[]`; for a
present id it never returns the id itself, the result is sorted by
similarity descending, and it contains exactly the other bodies within
`max_distance` whose similarity to the source is **at least** (not strictly
above) `min_similarity`. -/
theorem c5_neighbors_characterization (reg : List PhysicsBody) (bid : String)
    (maxD minSim : ℝ) :
    (reg.find? (fun b => b.id == bid) = none →
      getNearestNeighbors reg bid maxD minSim = []) ∧
    (∀ n ∈ getNearestNeighbors reg bid maxD minSim, n.id ≠ bid) ∧
    List.Pairwise (fun a c => c.similarity ≤ a.similarity)
      (getNearestNeighbors reg bid maxD minSim) ∧
    (∀ body, reg.find? (fun b => b.id == bid) = some body →
      (∀ o ∈ reg, o.id ≠ bid → rawDist body o ≤ maxD → minSim ≤ simOf body o →
        neighborEntry body o ∈ getNearestNeighbors reg bid maxD minSim) ∧
      (∀ n ∈ getNearestNeighbors reg bid maxD minSim,
        ∃ o, o ∈ reg ∧ o.id ≠ bid ∧ rawDist body o ≤ maxD ∧ minSim ≤ simOf body o ∧
          n = neighborEntry body o)) := by
  have hsound : ∀ body, reg.find? (fun b => b.id == bid) = some body →
      ∀ n ∈ getNearestNeighbors reg bid maxD minSim,
        ∃ o, o ∈ reg ∧ o.id ≠ bid ∧ rawDist body o ≤ maxD ∧ minSim ≤ simOf body o ∧
          n = neighborEntry body o := by
    intro body hfind n hn
    unfold getNearestNeighbors at hn
    rw [hfind] at hn
    rw [mem_sortDesc, List.mem_filterMap] at hn
    obtain ⟨o, ho, hc⟩ := hn
    obtain ⟨ha, hb, hc', hd⟩ := (neighborCandidate_eq_some body bid maxD minSim o n).mp hc
    exact ⟨o, ho, ha, hb, hc', hd⟩
  refine ⟨?_, ?_, ?_, ?_⟩
  · intro hnone
    unfold getNearestNeighbors
    rw [hnone]
  · intro n hn
    cases hfind : reg.find? (fun b => b.id == bid) with
    | none =>
      unfold getNearestNeighbors at hn
      rw [hfind] at hn
      cases hn
    | some body =>
      obtain ⟨o, _, ha, _, _, rfl⟩ := hsound body hfind n hn
      exact ha
  · cases hfind : reg.find? (fun b => b.id == bid) with
    | none =>
      unfold getNearestNeighbors
      rw [hfind]
      exact List.Pairwise.nil
    | some body =>
      unfold getNearestNeighbors
      rw [hfind]
      exact pairwise_sortDesc _
  · intro body hfind
    refine ⟨?_, hsound body hfind⟩
    intro o ho h1 h2 h3
    unfold getNearestNeighbors
    rw [hfind, mem_sortDesc, List.mem_filterMap]
    exact ⟨o, ho, (neighborCandidate_eq_some body bid maxD minSim o _).mpr ⟨h1, h2, h3, rfl⟩⟩

/-- Two co-located bodies without embeddings, used for the neighbor-query
evaluations. -/
noncomputable def nbA : PhysicsBody := ⟨"a", 0, 0, 0, 0, 1, 40, none, none⟩

noncomputable def nbB : PhysicsBody := ⟨"b", 0, 0, 0, 0, 1, 40, none, none⟩

theorem rawDist_nbA_nbB : rawDist nbA nbB = 0 := by
  unfold rawDist nbA nbB
  norm_num

theorem simOf_nbA_nbB : simOf nbA nbB = 0 := by
  simp [simOf, nbA, nbB, embActive]

/-- C5 counterexample: with `min_similarity = 0` the query returns a
neighbor whose similarity is exactly `0`, which does not *exceed* the bound
(the code compares with `>=`, the claim demands strict `>`). -/
theorem c5_counterexample :
    getNearestNeighbors [nbA, nbB] "a" 500 0 = [⟨"b", 0, 0, 0, 0⟩] ∧ ¬ ((0 : ℝ) > 0) := by
  have hcA : neighborCandidate nbA "a" 500 0 nbA = none := by
    simp [neighborCandidate, nbA]
  have hcB : neighborCandidate nbA "a" 500 0 nbB = some ⟨"b", 0, 0, 0, 0⟩ := by
    rw [neighborCandidate, if_neg (by simp [nbB]), if_neg (by rw [rawDist_nbA_nbB]; norm_num),
      if_pos (by rw [simOf_nbA_nbB])]
    unfold neighborEntry
    rw [rawDist_nbA_nbB, simOf_nbA_nbB]
    simp [nbB]
  refine ⟨?_, by norm_num⟩
  unfold getNearestNeighbors
  rw [show List.find? (fun b => b.id == "a") [nbA, nbB] = some nbA from by simp [List.find?, nbA]]
  simp [List.filterMap, hcA, hcB, sortDesc, insertDesc]

/-- The query applied to the concrete two-body registry: the entry for the
other body is returned (membership established through the theorem). -/
theorem c5_neighbors_witness :
    neighborEntry nbA nbB ∈ getNearestNeighbors [nbA, nbB] "a" 500 0 :=
  ((c5_neighbors_characterization [nbA, nbB] "a" 500 0).2.2.2 nbA
      (by simp [List.find?, nbA])).1 nbB (by simp)
    (by simp [nbB, nbA])
    (by rw [rawDist_nbA_nbB]; norm_num)
    (by rw [simOf_nbA_nbB])

/-- Bodies for the zero-norm-embedding counterexample. -/
noncomputable def zeroEmbA : PhysicsBody := ⟨"a", 0, 0, 0, 0, 1, 40, some [0], none⟩

noncomputable def oneEmbB : PhysicsBody := ⟨"b", 0, 0, 0, 0, 1, 40, some [1], none⟩

theorem simOf_zeroEmb : simOf zeroEmbA oneEmbB = 1 / 2 := by
  rw [simOf, if_pos (by simp [zeroEmbA, oneEmbB, embActive])]
  show computeSimilarity ((some [(0 : ℝ)]).getD []) ((some [(1 : ℝ)]).getD []) = 1 / 2
  simp only [Option.getD_some]
  exact computeSimilarity_zero_norm_left [0] [1] (by simp [vecNorm, sumSq])

theorem rawDist_zeroEmb : rawDist zeroEmbA oneEmbB = 0 := by
  unfold rawDist zeroEmbA oneEmbB
  norm_num

/-- C2 counterexample: a body with the zero-norm embedding `[0]` is treated
by the engine as having similarity `1/2` — not `0` — to an embedded body:
with `min_similarity = 0.4` the neighbor query returns that body with
similarity `1/2`, while a similarity of `0` would have been filtered out. -/
theorem c2_counterexample :
    vecNorm [(0 : ℝ)] = 0 ∧
    getNearestNeighbors [zeroEmbA, oneEmbB] "a" 500 0.4 = [⟨"b", 0, 1 / 2, 0, 0⟩] ∧
    (1 / 2 : ℝ) ≠ 0 := by
  have hcA : neighborCandidate zeroEmbA "a" 500 0.4 zeroEmbA = none := by
    simp [neighborCandidate, zeroEmbA]
  have hcB : neighborCandidate zeroEmbA "a" 500 0.4 oneEmbB = some ⟨"b", 0, 1 / 2, 0, 0⟩ := by
    rw [neighborCandidate, if_neg (by simp [oneEmbB]), if_neg (by rw [rawDist_zeroEmb]; norm_num),
      if_pos (by rw [simOf_zeroEmb]; norm_num)]
    unfold neighborEntry
    rw [rawDist_zeroEmb, simOf_zeroEmb]
    simp [oneEmbB]
  refine ⟨by simp [vecNorm, sumSq], ?_, by norm_num⟩
  unfold getNearestNeighbors
  rw [show List.find? (fun b => b.id == "a") [zeroEmbA, oneEmbB] = some zeroEmbA from by
    simp [List.find?, zeroEmbA]]
  simp [List.filterMap, hcA, hcB, sortDesc, insertDesc]

/-! ## Force evaluation order inside `step` (claim C4) -/

/-- Two embedding-free bodies 50 units apart. -/
noncomputable def fsA : PhysicsBody := ⟨"a", 0, 0, 0, 0, 1, 40, none, none⟩

noncomputable def fsB : PhysicsBody := ⟨"b", 50, 0, 0, 0, 1, 40, none, none⟩

/-- The first body after its in-place update inside `step`. -/
noncomputable def fsA1 : PhysicsBody := ⟨"a", -12.288, 0, -12.8, 0, 1, 40, none, none⟩

theorem clampedDist_fsA_fsB : clampedDist fsA fsB = 50 := by
  have h2500 : Real.sqrt 2500 = 50 := by
    rw [show (2500 : ℝ) = 50 ^ 2 from by norm_num, Real.sqrt_sq (by norm_num : (0:ℝ) ≤ 50)]
  have harg : ((fsB.x - fsA.x) * (fsB.x - fsA.x) + (fsB.y - fsA.y) * (fsB.y - fsA.y) : ℝ)
      = 2500 := by norm_num [fsA, fsB]
  unfold clampedDist
  rw [harg, h2500, if_neg (by norm_num)]

theorem computeForces_fsA : computeForces fsA [fsA, fsB] = (-1000, 0) := by
  have hrep : pairRepulsion fsA fsB = (-1000, 0) := by
    simp only [pairRepulsion, clampedDist_fsA_fsB]
    rw [if_pos (by norm_num [min_repulsion_distance])]
    norm_num [fsA, fsB, repulsion_strength, min_repulsion_distance]
  have hatt : pairAttraction fsA fsB = (0, 0) := by
    simp [pairAttraction, fsA, embActive]
  have hpf : pairForce fsA fsB = (-1000, 0) := by
    rw [pairForce, hrep, hatt]
    norm_num
  unfold computeForces
  rw [List.foldl_cons, List.foldl_cons, List.foldl_nil, if_pos rfl,
    if_neg (by simp [fsA, fsB]), hpf]
  norm_num

theorem integrate_fsA : integrate fsA (-1000) 0 = fsA1 := by
  have hdv : dampedVel fsA (-1000) 0 = (-12.8, 0) := by
    unfold dampedVel fsA
    norm_num [time_step, damping]
  have hsp : speed (-12.8 : ℝ) 0 = 12.8 := by
    unfold speed
    rw [show ((-12.8 : ℝ) * (-12.8) + 0 * 0) = 12.8 ^ 2 from by norm_num,
      Real.sqrt_sq (by norm_num : (0:ℝ) ≤ 12.8)]
  have hcv : cappedVel fsA (-1000) 0 = (-12.8, 0) := by
    simp only [cappedVel, hdv]
    rw [hsp, if_neg (by norm_num), if_neg (by norm_num [max_velocity])]
  simp only [integrate, hcv]
  unfold fsA fsA1
  norm_num [time_step]

theorem clampedDist_fsB_fsA1 : clampedDist fsB fsA1 = 62.288 := by
  have h62 : Real.sqrt 3879.794944 = 62.288 := by
    rw [show (3879.794944 : ℝ) = 62.288 ^ 2 from by norm_num,
      Real.sqrt_sq (by norm_num : (0:ℝ) ≤ 62.288)]
  have harg : ((fsA1.x - fsB.x) * (fsA1.x - fsB.x) + (fsA1.y - fsB.y) * (fsA1.y - fsB.y) : ℝ)
      = 3879.794944 := by norm_num [fsA1, fsB]
  unfold clampedDist
  rw [harg, h62, if_neg (by norm_num)]

theorem computeForces_fsB : computeForces fsB [fsA1, fsB] = (754.24, 0) := by
  have hrep : pairRepulsion fsB fsA1 = (754.24, 0) := by
    simp only [pairRepulsion, clampedDist_fsB_fsA1]
    rw [if_pos (by norm_num [min_repulsion_distance])]
    norm_num [fsA1, fsB, repulsion_strength, min_repulsion_distance]
  have hatt : pairAttraction fsB fsA1 = (0, 0) := by
    simp [pairAttraction, fsB, embActive]
  have hpf : pairForce fsB fsA1 = (754.24, 0) := by
    rw [pairForce, hrep, hatt]
    norm_num
  unfold computeForces
  rw [List.foldl_cons, List.foldl_cons, List.foldl_nil,
    if_neg (show ¬(fsA1.id = fsB.id) from by simp [fsA1, fsB]), if_pos rfl, hpf]
  norm_num

/-- C4 counterexample: `step` updates bodies in place while iterating, so the
force the second body receives from the first is computed against the
first body's *already updated* position.  On this concrete registry the
first body receives `(-1000, 0)` but the second receives `(754.24, 0)`,
which is not the equal-and-opposite `(1000, 0)` the claim requires. -/
theorem c4_counterexample :
    forcesDuringStep [fsA, fsB] = [("a", (-1000 : ℝ), (0 : ℝ)), ("b", (754.24 : ℝ), (0 : ℝ))] ∧
    ¬ ((754.24 : ℝ) = -(-1000 : ℝ)) := by
  refine ⟨?_, by norm_num⟩
  unfold forcesDuringStep
  simp only [stepAuxF, List.nil_append, List.cons_append]
  rw [computeForces_fsA]
  dsimp only
  rw [integrate_fsA, computeForces_fsB]
  simp [fsA, fsB]

/-! ## Clustering guards (claims C6 and C3) -/

/-- C6: `compute_clusters` on fewer than 2 items (or embeddings) returns the
empty list, whatever the clustering backend does. -/
theorem c6_few_items_empty
    (standardizeFn : List (List ℝ) → List (List ℝ))
    (dbscanFn : ℝ → ℕ → List (List ℝ) → List ℤ)
    (kmeansFn : ℕ → List (List ℝ) → List ℤ)
    (cfg : ClusteringConfig) (items : List ClusterItem) (embeddings : List (List ℝ))
    (h : items.length < 2 ∨ embeddings.length < 2) :
    computeClusters standardizeFn dbscanFn kmeansFn cfg items embeddings = [] := by
  unfold computeClusters
  rw [if_pos h]

/-- One embedded item: `compute_clusters` returns `[]`. -/
theorem c6_few_items_empty_witness :
    computeClusters (fun e => e) (fun _ _ _ => []) (fun _ _ => [])
      ⟨"dbscan", 0.5, 2, none⟩ [⟨"i1", "", "", 0, 0⟩] [[1, 2]] = [] :=
  c6_few_items_empty _ _ _ _ _ _ (Or.inl (by norm_num))

/-- C3: a request whose algorithm is neither `"dbscan"` nor `"kmeans"` fails
at validation, before any clustering: the endpoint result is the validation
error and does not depend on the clustering backends at all. -/
theorem c3_unknown_algorithm_fails_fast
    (standardizeFn : List (List ℝ) → List (List ℝ))
    (dbscanFn : ℝ → ℕ → List (List ℝ) → List ℤ)
    (kmeansFn : ℕ → List (List ℝ) → List ℤ)
    (algorithm : String) (eps : ℝ) (minSamples : ℕ) (nClusters : Option ℕ)
    (useLlmNaming : Bool) (items : List ClusterItem) (embeddings : List (List ℝ))
    (h1 : algorithm ≠ "dbscan") (h2 : algorithm ≠ "kmeans") :
    computeClustersEndpoint standardizeFn dbscanFn kmeansFn algorithm eps minSamples
        nClusters useLlmNaming items embeddings
      = .error "algorithm: string should match pattern" := by
  unfold computeClustersEndpoint mkComputeClustersRequest
  rw [if_pos (not_or.mpr ⟨h1, h2⟩)]
  rfl

/-- The endpoint applied to the unknown algorithm name `"foo"`. -/
theorem c3_unknown_algorithm_witness :
    computeClustersEndpoint (fun e => e) (fun _ _ _ => []) (fun _ _ => [])
      "foo" 0.5 2 none false [] []
      = .error "algorithm: string should match pattern" :=
  c3_unknown_algorithm_fails_fast _ _ _ _ _ _ _ _ _ _ (by decide) (by decide)

/-! ## Cluster geometry (claim C9) -/

theorem le_foldl_max_init (a b : ℝ) (l : List ℝ) (h : a ≤ b) : a ≤ l.foldl max b := by
  induction l generalizing b with
  | nil => exact h
  | cons e es ih => exact ih _ (le_trans h (le_max_left b e))

theorem le_foldl_max (d : ℝ) (ds : List ℝ) (x : ℝ) (hx : x = d ∨ x ∈ ds) :
    x ≤ ds.foldl max d := by
  induction ds generalizing d with
  | nil =>
    rcases hx with rfl | h
    · exact le_refl x
    · cases h
  | cons e es ih =>
    rcases hx with rfl | hx'
    · exact le_foldl_max_init x (max x e) es (le_max_left x e)
    · rcases List.mem_cons.mp hx' with rfl | hmem
      · exact le_foldl_max_init x (max d x) es (le_max_right d x)
      · exact ih _ (Or.inr hmem)

theorem dist_le_clusterMaxDist (members : List ClusterItem) (it : ClusterItem)
    (h : it ∈ members) :
    Real.sqrt ((it.position_x - (clusterCenter members).1) *
        (it.position_x - (clusterCenter members).1) +
      (it.position_y - (clusterCenter members).2) *
        (it.position_y - (clusterCenter members).2))
      ≤ clusterMaxDist members := by
  cases members with
  | nil => cases h
  | cons m ms =>
    unfold clusterMaxDist
    simp only [List.map_cons]
    rcases List.mem_cons.mp h with rfl | hmem
    · exact le_foldl_max _ _ _ (Or.inl rfl)
    · exact le_foldl_max _ _ _ (Or.inr (List.mem_map.mpr ⟨it, hmem, rfl⟩))

/-- C9: every cluster produced by `_build_clusters` carries
`radius = max member distance from the centroid + 100`, so its radius bounds
every member's distance from the centroid. -/
theorem c9_cluster_radius :
    (∀ (items : List ClusterItem) (labels : List ℤ) (c : Cluster),
        c ∈ buildClusters items labels →
        ∃ idx lbl, buildOne items labels idx lbl = some c) ∧
    (∀ (items : List ClusterItem) (labels : List ℤ) (idx : ℕ) (lbl : ℤ) (c : Cluster),
        buildOne items labels idx lbl = some c →
        c.radius = clusterMaxDist (clusterMembers items labels lbl) + 100 ∧
        clusterMaxDist (clusterMembers items labels lbl) ≤ c.radius ∧
        ∀ it ∈ clusterMembers items labels lbl,
          Real.sqrt ((it.position_x - (clusterCenter (clusterMembers items labels lbl)).1) *
              (it.position_x - (clusterCenter (clusterMembers items labels lbl)).1) +
            (it.position_y - (clusterCenter (clusterMembers items labels lbl)).2) *
              (it.position_y - (clusterCenter (clusterMembers items labels lbl)).2))
            ≤ c.radius) := by
  constructor
  · intro items labels c hc
    unfold buildClusters at hc
    rw [List.mem_filterMap] at hc
    obtain ⟨p, _, hbuild⟩ := hc
    exact ⟨p.1, p.2, hbuild⟩
  · intro items labels idx lbl c hb
    simp only [buildOne] at hb
    split_ifs at hb with h1 h2
    obtain rfl := (Option.some_inj.mp hb).symm
    refine ⟨rfl, by simp, ?_⟩
    intro it hit
    have := dist_le_clusterMaxDist (clusterMembers items labels lbl) it hit
    simp only [Cluster.mk.injEq]
    linarith

/-- Concrete two-item cluster input with both items at the origin. -/
noncomputable def c9items : List ClusterItem :=
  [⟨"i1", "", "", 0, 0⟩, ⟨"i2", "", "", 0, 0⟩]

/-- The cluster `_build_clusters` produces for that input (the naming
fields are kept symbolic; the claim concerns the geometry). -/
noncomputable def c9c : Cluster :=
  ⟨"cluster-" ++ toString (0 : ℤ), generateClusterName (extractKeywords c9items),
   CLUSTER_COLORS.getD (0 % CLUSTER_COLORS.length) "", 0, 0, 100,
   ["i1", "i2"], (extractKeywords c9items).take 5⟩

theorem clusterMembers_c9 : clusterMembers c9items [0, 0] 0 = c9items := by
  simp [clusterMembers, c9items]

theorem clusterCenter_c9 : clusterCenter c9items = (0, 0) := by
  simp [clusterCenter, c9items]

theorem clusterMaxDist_c9 : clusterMaxDist c9items = 0 := by
  unfold clusterMaxDist
  rw [clusterCenter_c9]
  simp [c9items]

theorem buildOne_c9 : buildOne c9items [0, 0] 0 0 = some c9c := by
  simp only [buildOne]
  rw [clusterMembers_c9]
  rw [if_neg (by decide : ¬((0 : ℤ) = -1)), if_neg (by simp [c9items])]
  rw [clusterCenter_c9, clusterMaxDist_c9]
  simp [c9c, c9items]

/-- The theorem applied to the concrete input: radius is the maximal member
distance plus the fixed 100-unit padding, hence at least that distance. -/
theorem c9_cluster_radius_witness :
    c9c.radius = clusterMaxDist (clusterMembers c9items [0, 0] 0) + 100 ∧
    clusterMaxDist (clusterMembers c9items [0, 0] 0) ≤ c9c.radius :=
  ⟨(c9_cluster_radius.2 c9items [0, 0] 0 0 c9c buildOne_c9).1,
   (c9_cluster_radius.2 c9items [0, 0] 0 0 c9c buildOne_c9).2.1⟩

/-! ## Socket-manager invariants (claims C7, C8, C10) -/

/-- Each room member's metadata tracks exactly that room, and room names are
truthy. -/
def RoomsTracked (s : SMState) : Prop :=
  ∀ sid w, sid ∈ memOf s w → trackedWs s sid = some w ∧ w ≠ ""

/-- The Socket.IO room table agrees with the workspace member sets. -/
def RoomsAgree (s : SMState) : Prop :=
  ∀ w, s.sioRooms w = memOf s w

def SMInv (s : SMState) : Prop := RoomsTracked s ∧ RoomsAgree s

theorem memOf_removeFromRoom (s : SMState) (sid w v : String) :
    memOf (removeFromRoom s sid w) v
      = if v = w then (memOf s w).erase sid else memOf s v := by
  unfold removeFromRoom
  cases h : s.workspace_users w with
  | none =>
    by_cases hv : v = w
    · subst hv
      simp [memOf, h]
    · simp [hv]
  | some mem =>
    by_cases hv : v = w
    · subst hv
      simp [memOf, h]
    · simp [memOf, hv]

theorem sio_removeFromRoom (s : SMState) (sid w v : String)
    (hAg : s.sioRooms w = memOf s w) :
    (removeFromRoom s sid w).sioRooms v
      = if v = w then (s.sioRooms w).erase sid else s.sioRooms v := by
  unfold removeFromRoom
  cases h : s.workspace_users w with
  | none =>
    by_cases hv : v = w
    · subst hv
      simp [hAg, memOf, h]
    · simp [hv]
  | some mem =>
    by_cases hv : v = w
    · subst hv
      simp
    · simp [hv]

theorem info_removeFromRoom (s : SMState) (sid w : String) :
    (removeFromRoom s sid w).user_info = s.user_info := by
  unfold removeFromRoom
  cases s.workspace_users w <;> rfl

theorem memOf_removeMember (s : SMState) (sid w v : String) :
    memOf (removeMember s sid w) v
      = if v = w then (memOf s w).erase sid else memOf s v := by
  unfold removeMember
  cases h : s.workspace_users w with
  | none =>
    by_cases hv : v = w
    · subst hv
      simp [memOf, h]
    · simp [hv]
  | some mem =>
    by_cases hv : v = w
    · subst hv
      simp [memOf, h]
    · simp [memOf, hv]

theorem sio_removeMember (s : SMState) (sid w : String) :
    (removeMember s sid w).sioRooms = s.sioRooms := by
  unfold removeMember
  cases s.workspace_users w <;> rfl

theorem info_removeMember (s : SMState) (sid w : String) :
    (removeMember s sid w).user_info = s.user_info := by
  unfold removeMember
  cases s.workspace_users w <;> rfl

theorem memOf_leavePrev_subset (s : SMState) (sid : String) {u v : String}
    (h : u ∈ memOf (leavePrev s sid) v) : u ∈ memOf s v := by
  unfold leavePrev at h
  cases htr : trackedWs s sid with
  | none =>
    rw [htr] at h
    exact h
  | some old =>
    rw [htr] at h
    dsimp only at h
    by_cases ho : old = ""
    · rw [if_pos ho] at h
      exact h
    · rw [if_neg ho, memOf_removeFromRoom] at h
      by_cases hv : v = old
      · rw [if_pos hv] at h
        rw [hv]
        exact Finset.mem_of_mem_erase h
      · rwa [if_neg hv] at h

theorem not_mem_leavePrev (s : SMState) (sid : String) (hT : RoomsTracked s)
    (v : String) : sid ∉ memOf (leavePrev s sid) v := by
  intro hmem
  unfold leavePrev at hmem
  cases htr : trackedWs s sid with
  | none =>
    rw [htr] at hmem
    obtain ⟨h1, _⟩ := hT sid v hmem
    rw [htr] at h1
    cases h1
  | some old =>
    rw [htr] at hmem
    dsimp only at hmem
    by_cases ho : old = ""
    · rw [if_pos ho] at hmem
      obtain ⟨h1, h2⟩ := hT sid v hmem
      rw [htr] at h1
      injection h1 with h1'
      exact h2 (by rw [← h1', ho])
    · rw [if_neg ho, memOf_removeFromRoom] at hmem
      by_cases hv : v = old
      · rw [if_pos hv] at hmem
        exact Finset.not_mem_erase sid _ hmem
      · rw [if_neg hv] at hmem
        obtain ⟨h1, _⟩ := hT sid v hmem
        rw [htr] at h1
        injection h1 with h1'
        exact hv h1'.symm

theorem info_leavePrev (s : SMState) (sid : String) :
    (leavePrev s sid).user_info = s.user_info := by
  unfold leavePrev
  cases htr : trackedWs s sid with
  | none => rfl
  | some old =>
    dsimp only
    by_cases ho : old = ""
    · rw [if_pos ho]
    · rw [if_neg ho]
      exact info_removeFromRoom s sid old

theorem agree_leavePrev (s : SMState) (sid : String) (hA : RoomsAgree s) :
    RoomsAgree (leavePrev s sid) := by
  intro v
  unfold leavePrev
  cases htr : trackedWs s sid with
  | none => exact hA v
  | some old =>
    dsimp only
    by_cases ho : old = ""
    · rw [if_pos ho]
      exact hA v
    · rw [if_neg ho, sio_removeFromRoom s sid old v (hA old), memOf_removeFromRoom]
      by_cases hv : v = old
      · rw [if_pos hv, if_pos hv, hA old]
      · rw [if_neg hv, if_neg hv]
        exact hA v

theorem memOf_addMember (s : SMState) (sid w v : String) :
    memOf (addMember s sid w) v
      = if v = w then insert sid (memOf s w) else memOf s v := by
  unfold addMember memOf
  by_cases hv : v = w
  · subst hv
    simp
  · simp [hv]

theorem memOf_enterRoom (s : SMState) (sid w v : String) :
    memOf (enterRoom s sid w) v = memOf s v := rfl

theorem memOf_setInfo (s : SMState) (sid : String) (i : UserInfo) (v : String) :
    memOf (setInfo s sid i) v = memOf s v := rfl

theorem trackedWs_setInfo (s : SMState) (sid : String) (i : UserInfo) (u : String) :
    trackedWs (setInfo s sid i) u
      = if u = sid then i.workspace_id else trackedWs s u := by
  unfold trackedWs setInfo
  by_cases hu : u = sid
  · simp [hu]
  · simp [hu]

theorem smInv_connect (s : SMState) (sid ts : String) (h : SMInv s)
    (hfresh : s.user_info sid = none) : SMInv (connectOp s sid ts) := by
  obtain ⟨ht, ha⟩ := h
  constructor
  · intro u v hm
    have hm' : u ∈ memOf s v := hm
    obtain ⟨htr, hne⟩ := ht u v hm'
    by_cases hu : u = sid
    · subst hu
      rw [trackedWs] at htr
      rw [hfresh] at htr
      cases htr
    · refine ⟨?_, hne⟩
      rw [show connectOp s sid ts = setInfo s sid ⟨ts, none, none⟩ from rfl,
        trackedWs_setInfo, if_neg hu]
      exact htr
  · intro w
    exact ha w

/-- The state after the mutating part of a successful `join_workspace`. -/
theorem smInv_join_core (s : SMState) (sid w : String) (hw : w ≠ "")
    (h : SMInv s) (i : UserInfo) (hi : i.workspace_id = some w) :
    SMInv (setInfo (addMember (enterRoom (leavePrev s sid) sid w) sid w) sid i) := by
  obtain ⟨ht, ha⟩ := h
  have hmem : ∀ v, memOf (setInfo (addMember (enterRoom (leavePrev s sid) sid w) sid w) sid i) v
      = if v = w then insert sid (memOf (leavePrev s sid) w)
        else memOf (leavePrev s sid) v := by
    intro v
    rw [memOf_setInfo, memOf_addMember]
    rfl
  have htr' : ∀ u, trackedWs (setInfo (addMember (enterRoom (leavePrev s sid) sid w) sid w) sid i) u
      = if u = sid then i.workspace_id
        else trackedWs s u := by
    intro u
    rw [trackedWs_setInfo]
    by_cases hu : u = sid
    · rw [if_pos hu, if_pos hu]
    · rw [if_neg hu, if_neg hu]
      show (addMember (enterRoom (leavePrev s sid) sid w) sid w).user_info u >>= _
        = trackedWs s u
      have : (addMember (enterRoom (leavePrev s sid) sid w) sid w).user_info
          = s.user_info := by
        show (leavePrev s sid).user_info = s.user_info
        exact info_leavePrev s sid
      rw [show ((addMember (enterRoom (leavePrev s sid) sid w) sid w).user_info u >>= fun i => i.workspace_id)
          = trackedWs (addMember (enterRoom (leavePrev s sid) sid w) sid w) u from rfl]
      unfold trackedWs
      rw [this]
  constructor
  · intro u v hm
    rw [hmem] at hm
    by_cases hu : u = sid
    · subst hu
      by_cases hv : v = w
      · subst hv
        exact ⟨by rw [htr' u, if_pos rfl, hi], hw⟩
      · rw [if_neg hv] at hm
        exact absurd hm (not_mem_leavePrev s u ht v)
    · have hm' : u ∈ memOf (leavePrev s sid) v := by
        by_cases hv : v = w
        · rw [if_pos hv] at hm
          rcases Finset.mem_insert.mp hm with rfl | hmm
          · exact absurd rfl hu
          · rwa [hv]
        · rwa [if_neg hv] at hm
      obtain ⟨h1, h2⟩ := ht u v (memOf_leavePrev_subset s sid hm')
      refine ⟨?_, h2⟩
      rw [htr' u, if_neg hu]
      exact h1
  · intro v
    have hag := agree_leavePrev s sid ha
    show (enterRoom (leavePrev s sid) sid w).sioRooms v = _
    rw [hmem]
    unfold enterRoom
    by_cases hv : v = w
    · subst hv
      simp only [if_pos rfl]
      rw [hag v]
    · simp only [if_neg hv]
      exact hag v

theorem smInv_join (s : SMState) (sid : String) (d : JoinData) (h : SMInv s) :
    SMInv (joinOp s sid d).1 := by
  unfold joinOp
  cases d.workspace_id with
  | none => exact h
  | some w =>
    by_cases hw : w = ""
    · dsimp only
      rw [if_pos hw]
      exact h
    · dsimp only
      rw [if_neg hw]
      dsimp only
      apply smInv_join_core s sid w hw h
      cases (addMember (enterRoom (leavePrev s sid) sid w) sid w).user_info sid <;> rfl

theorem smInv_leave (s : SMState) (sid : String) (d : LeaveData) (h : SMInv s)
    (hok : d.workspace_id = trackedWs s sid) : SMInv (leaveOp s sid d) := by
  obtain ⟨ht, ha⟩ := h
  have hstate : leaveOp s sid d
      = setInfo (leavePrev s sid) sid
          (match (leavePrev s sid).user_info sid with
            | some info => { info with workspace_id := none }
            | none => ⟨"", none, none⟩) := by
    unfold leaveOp leavePrev
    rw [hok]
  rw [hstate]
  constructor
  · intro u v hm
    rw [memOf_setInfo] at hm
    by_cases hu : u = sid
    · subst hu
      exact absurd hm (not_mem_leavePrev s u ht v)
    · obtain ⟨h1, h2⟩ := ht u v (memOf_leavePrev_subset s sid hm)
      refine ⟨?_, h2⟩
      rw [trackedWs_setInfo, if_neg hu]
      show trackedWs (leavePrev s sid) u = some v
      unfold trackedWs
      rw [info_leavePrev]
      exact h1
  · intro v
    show (leavePrev s sid).sioRooms v = memOf (leavePrev s sid) v
    exact agree_leavePrev s sid ha v

theorem smInv_disconnect (s : SMState) (sid : String) (h : SMInv s) :
    SMInv (disconnectOp s sid) := by
  obtain ⟨ht, ha⟩ := h
  have hnotmem : ∀ v, sid ∉ memOf
      (match trackedWs s sid with
        | some w => if w = "" then s else removeMember s sid w
        | none => s) v := by
    intro v hmem
    cases htr : trackedWs s sid with
    | none =>
      rw [htr] at hmem
      obtain ⟨h1, _⟩ := ht sid v hmem
      rw [htr] at h1
      cases h1
    | some w =>
      rw [htr] at hmem
      dsimp only at hmem
      by_cases hww : w = ""
      · rw [if_pos hww] at hmem
        obtain ⟨h1, h2⟩ := ht sid v hmem
        rw [htr] at h1
        injection h1 with h1'
        exact h2 (by rw [← h1', hww])
      · rw [if_neg hww, memOf_removeMember] at hmem
        by_cases hv : v = w
        · rw [if_pos hv] at hmem
          exact Finset.not_mem_erase sid _ hmem
        · rw [if_neg hv] at hmem
          obtain ⟨h1, _⟩ := ht sid v hmem
          rw [htr] at h1
          injection h1 with h1'
          exact hv h1'.symm
  have hmemsub : ∀ u v, u ∈ memOf
      (match trackedWs s sid with
        | some w => if w = "" then s else removeMember s sid w
        | none => s) v → u ∈ memOf s v := by
    intro u v hmem
    cases htr : trackedWs s sid with
    | none =>
      rw [htr] at hmem
      exact hmem
    | some w =>
      rw [htr] at hmem
      dsimp only at hmem
      by_cases hww : w = ""
      · rwa [if_pos hww] at hmem
      · rw [if_neg hww, memOf_removeMember] at hmem
        by_cases hv : v = w
        · rw [if_pos hv] at hmem
          rw [hv]
          exact Finset.mem_of_mem_erase hmem
        · rwa [if_neg hv] at hmem
  have hwrap_mem : ∀ (X : SMState) (v : String),
      memOf (sioDropAll (dropInfo X sid) sid) v = memOf X v := fun _ _ => rfl
  have hwrap_trk : ∀ (X : SMState) (u : String), u ≠ sid →
      trackedWs (sioDropAll (dropInfo X sid) sid) u = trackedWs X u := by
    intro X u hu
    unfold trackedWs sioDropAll dropInfo
    dsimp only
    rw [if_neg hu]
  have htrk_prev : ∀ u : String, trackedWs
      (match trackedWs s sid with
        | some w => if w = "" then s else removeMember s sid w
        | none => s) u = trackedWs s u := by
    intro u
    cases htr : trackedWs s sid with
    | none => rfl
    | some w =>
      dsimp only
      by_cases hww : w = ""
      · rw [if_pos hww]
      · rw [if_neg hww]
        unfold trackedWs
        rw [info_removeMember]
  unfold disconnectOp
  constructor
  · intro u v hm
    rw [hwrap_mem] at hm
    by_cases hu : u = sid
    · subst hu
      exact absurd hm (hnotmem v)
    · obtain ⟨h1, h2⟩ := ht u v (hmemsub u v hm)
      refine ⟨?_, h2⟩
      rw [hwrap_trk _ u hu, htrk_prev u]
      exact h1
  · intro v
    rw [hwrap_mem]
    show ((match trackedWs s sid with
        | some w => if w = "" then s else removeMember s sid w
        | none => s).sioRooms v).erase sid = _
    have hsio : (match trackedWs s sid with
        | some w => if w = "" then s else removeMember s sid w
        | none => s).sioRooms v = s.sioRooms v := by
      cases htr : trackedWs s sid with
      | none => rfl
      | some w =>
        dsimp only
        by_cases hww : w = ""
        · rw [if_pos hww]
        · rw [if_neg hww, sio_removeMember]
    rw [hsio, ha v]
    cases htr : trackedWs s sid with
    | none =>
      show (memOf s v).erase sid = memOf s v
      apply Finset.erase_eq_of_not_mem
      intro hmem
      obtain ⟨h1, _⟩ := ht sid v hmem
      rw [htr] at h1
      cases h1
    | some w =>
      dsimp only
      by_cases hww : w = ""
      · rw [if_pos hww]
        show (memOf s v).erase sid = memOf s v
        apply Finset.erase_eq_of_not_mem
        intro hmem
        obtain ⟨h1, h2⟩ := ht sid v hmem
        rw [htr] at h1
        injection h1 with h1'
        exact h2 (by rw [← h1', hww])
      · rw [if_neg hww]
        rw [memOf_removeMember s sid w v]
        by_cases hv : v = w
        · rw [if_pos hv, hv]
        · rw [if_neg hv]
          apply Finset.erase_eq_of_not_mem
          intro hmem
          obtain ⟨h1, _⟩ := ht sid v hmem
          rw [htr] at h1
          injection h1 with h1'
          exact hv h1'.symm

theorem smInv_init : SMInv initSMState := by
  constructor
  · intro sid w hm
    simp [memOf, initSMState] at hm
  · intro w
    rfl

theorem smInv_step (s : SMState) (op : SMOp) (h : SMInv s) (hok : okStep s op) :
    SMInv (applyOp s op) := by
  cases op with
  | connect sid ts => exact smInv_connect s sid ts h hok
  | disconnect sid => exact smInv_disconnect s sid h
  | join sid d => exact smInv_join s sid d h
  | leave sid d => exact smInv_leave s sid d h hok

theorem smInv_fold (ops : List SMOp) :
    ∀ s, SMInv s → okTrace s ops → SMInv (ops.foldl applyOp s) := by
  induction ops with
  | nil => intro s h _; exact h
  | cons op rest ih =>
    intro s h hok
    exact ih (applyOp s op) (smInv_step s op h hok.1) hok.2

theorem smInv_run (ops : List SMOp) (h : okTrace initSMState ops) :
    SMInv (runOps ops) :=
  smInv_fold ops initSMState smInv_init h

theorem joinOp_tracked_self (t : SMState) (sid w : String) (n : Option String)
    (hw : w ≠ "") :
    trackedWs (joinOp t sid ⟨some w, n⟩).1 sid = some w := by
  unfold joinOp
  dsimp only
  rw [if_neg hw]
  dsimp only
  rw [trackedWs_setInfo, if_pos rfl]
  cases (addMember (enterRoom (leavePrev t sid) sid w) sid w).user_info sid <;> rfl

theorem joinOp_memOf (t : SMState) (sid w : String) (n : Option String)
    (hw : w ≠ "") (v : String) :
    memOf (joinOp t sid ⟨some w, n⟩).1 v
      = if v = w then insert sid (memOf (leavePrev t sid) w)
        else memOf (leavePrev t sid) v := by
  unfold joinOp
  dsimp only
  rw [if_neg hw]
  dsimp only
  rw [memOf_setInfo, memOf_addMember]
  rfl

/-- C7 (amended): as long as `connect` always brings a fresh sid and every
`leave_workspace` call names the connection's currently tracked workspace,
every connection id is in at most one room's member set; and from *any*
state, joining `w1` and then a different (truthy) `w2` leaves `w1`'s member
set without the connection. -/
theorem c7_one_room_per_connection :
    (∀ (ops : List SMOp), okTrace initSMState ops →
      ∀ sid w1 w2, sid ∈ memOf (runOps ops) w1 → sid ∈ memOf (runOps ops) w2 →
        w1 = w2) ∧
    (∀ (s : SMState) (sid w1 w2 n1 n2 : String), w1 ≠ "" → w2 ≠ "" → w1 ≠ w2 →
      sid ∉ memOf (applyOp (applyOp s (.join sid ⟨some w1, some n1⟩))
        (.join sid ⟨some w2, some n2⟩)) w1) := by
  constructor
  · intro ops hok sid w1 w2 h1 h2
    obtain ⟨ht, _⟩ := smInv_run ops hok
    have e1 := (ht sid w1 h1).1
    have e2 := (ht sid w2 h2).1
    rw [e1] at e2
    injection e2
  · intro s sid w1 w2 n1 n2 hw1 hw2 hne
    have htr : trackedWs (joinOp s sid ⟨some w1, some n1⟩).1 sid = some w1 :=
      joinOp_tracked_self s sid w1 (some n1) hw1
    show sid ∉ memOf (joinOp (joinOp s sid ⟨some w1, some n1⟩).1 sid ⟨some w2, some n2⟩).1 w1
    rw [joinOp_memOf _ sid w2 (some n2) hw2 w1, if_neg hne]
    unfold leavePrev
    rw [htr]
    dsimp only
    rw [if_neg hw1, memOf_removeFromRoom, if_pos rfl]
    exact Finset.not_mem_erase sid _

/-- The trace that breaks the unrestricted claim: `leave` names a workspace
the connection never joined. -/
def c7trace : List SMOp :=
  [.connect "a" "t1", .connect "b" "t2",
   .join "a" ⟨some "w1", some "Alice"⟩,
   .join "b" ⟨some "w2", some "Bob"⟩,
   .leave "a" ⟨some "w2"⟩,
   .join "a" ⟨some "w3", some "Alice"⟩]

/-- C7 counterexample: after a mismatched `leave_workspace` (naming `w2`
while the connection is in `w1`), the handler still clears the tracked
workspace, so the next join does not remove the stale `w1` membership: the
connection ends up in the member sets of both `w1` and `w3`. -/
theorem c7_counterexample :
    "a" ∈ memOf (runOps c7trace) "w1" ∧ "a" ∈ memOf (runOps c7trace) "w3" ∧
    ("w1" : String) ≠ "w3" := by decide

/-- The amended claim applied to concrete traces. -/
theorem c7_one_room_witness :
    ("w1" : String) = "w1" ∧
    "a" ∉ memOf (applyOp (applyOp initSMState (.join "a" ⟨some "x", some "A"⟩))
      (.join "a" ⟨some "y", some "A"⟩)) "x" :=
  ⟨c7_one_room_per_connection.1 [.connect "a" "t", .join "a" ⟨some "w1", some "A"⟩]
      (by decide) "a" "w1" "w1" (by decide) (by decide),
   c7_one_room_per_connection.2 initSMState "a" "x" "y" "A" "A"
      (by decide) (by decide) (by decide)⟩

/-- C8 (amended): in every state reached by a well-formed trace (fresh
connects, matched leaves), a point-event relay from a sender tracked in
room `w` goes to exactly the other members of `w`: the sender is excluded
and every other member is included. -/
theorem c8_relay_recipients (ops : List SMOp) (hok : okTrace initSMState ops)
    (sid w : String) (htr : trackedWs (runOps ops) sid = some w) (hw : w ≠ "") :
    relayRecipients (runOps ops) sid = some ((memOf (runOps ops) w).erase sid) ∧
    sid ∉ (memOf (runOps ops) w).erase sid ∧
    ∀ m ∈ memOf (runOps ops) w, m ≠ sid → m ∈ (memOf (runOps ops) w).erase sid := by
  obtain ⟨_, ha⟩ := smInv_run ops hok
  refine ⟨?_, Finset.not_mem_erase sid _,
    fun m hm hne => Finset.mem_erase.mpr ⟨hne, hm⟩⟩
  unfold relayRecipients
  rw [htr]
  dsimp only
  rw [if_neg hw, ha w]

/-- The trace that breaks the unrestricted relay claim: a mismatched leave
followed by a disconnect leaves a stale member in `w1`'s member set while
the Socket.IO room no longer contains it. -/
def c8trace : List SMOp :=
  [.connect "a" "t1", .join "a" ⟨some "w1", some "A"⟩,
   .connect "b" "t2", .join "b" ⟨some "w2", some "B"⟩,
   .leave "a" ⟨some "w2"⟩, .disconnect "a",
   .connect "c" "t3", .join "c" ⟨some "w1", some "C"⟩,
   .connect "d" "t4", .join "d" ⟨some "w1", some "D"⟩]

/-- C8 counterexample: sender `"c"` is tracked in `"w1"`, but the relay's
recipient set (the Socket.IO room minus the sender) is not the member set of
`"w1"` minus the sender — the stale disconnected member `"a"` is still in
the member set but receives nothing. -/
theorem c8_counterexample :
    trackedWs (runOps c8trace) "c" = some "w1" ∧
    relayRecipients (runOps c8trace) "c"
      ≠ some ((memOf (runOps c8trace) "w1").erase "c") := by decide

/-- A well-formed two-member room, relay from one member. -/
def c8wtrace : List SMOp :=
  [.connect "a" "t1", .connect "b" "t2",
   .join "a" ⟨some "w1", some "A"⟩, .join "b" ⟨some "w1", some "B"⟩]

theorem c8_relay_recipients_witness :
    relayRecipients (runOps c8wtrace) "a"
      = some ((memOf (runOps c8wtrace) "w1").erase "a") ∧
    "a" ∉ (memOf (runOps c8wtrace) "w1").erase "a" :=
  ⟨(c8_relay_recipients c8wtrace (by decide) "a" "w1" (by decide) (by decide)).1,
   (c8_relay_recipients c8wtrace (by decide) "a" "w1" (by decide) (by decide)).2.1⟩

/-- C10: `join_workspace` on data without a `workspace_id` returns the error
reply and leaves the whole state — member sets, Socket.IO rooms and
per-connection metadata — exactly as it was. -/
theorem c10_join_missing_workspace_noop (s : SMState) (sid : String) (d : JoinData)
    (h : d.workspace_id = none) :
    joinOp s sid d = (s, .error "workspace_id required") := by
  unfold joinOp
  rw [h]

theorem c10_join_missing_workspace_witness :
    joinOp initSMState "conn1" ⟨none, some "Alice"⟩
      = (initSMState, .error "workspace_id required") :=
  c10_join_missing_workspace_noop initSMState "conn1" ⟨none, some "Alice"⟩ rfl

end Synapse
